import Mathlib

set_option maxHeartbeats 1000000

set_option maxRecDepth 8192

/-! Shallow embedding of src/TopicMining.py (Wikipedia Trend Finder).

The program is a linear pipeline: collect two text fields, call a completion
endpoint once, validate the pipe-delimited reply, percent-encode the segments
into a fixed pageviews URL, and render a readable topic list.  The one network
call is modelled as a parameter of type `ApiResult`; everything else is the
string processing of the source, embedded faithfully. -/

/-- Whitespace test of Python str.strip (the Unicode whitespace set of str). -/
def pyIsSpace (c : Char) : Bool :=
  let n := c.toNat
  (0x09 ≤ n && n ≤ 0x0D) || (0x1C ≤ n && n ≤ 0x1F) || n == 0x20 || n == 0x85 || n == 0xA0 ||
    n == 0x1680 || (0x2000 ≤ n && n ≤ 0x200A) || n == 0x2028 || n == 0x2029 || n == 0x202F ||
    n == 0x205F || n == 0x3000

/-- Python str.strip on a list of characters. -/
def pyStripL (cs : List Char) : List Char :=
  ((cs.dropWhile pyIsSpace).reverse.dropWhile pyIsSpace).reverse

/-- Python str.strip. -/
def pyStrip (s : String) : String := String.mk (pyStripL s.data)

/-- Python str.split with a one-character separator, on lists of characters:
splits at every occurrence, and the empty list splits to one empty part. -/
def splitOnCharL (sep : Char) : List Char → List (List Char)
  | [] => [[]]
  | c :: rest =>
    if c = sep then [] :: splitOnCharL sep rest
    else
      match splitOnCharL sep rest with
      | s :: ss => (c :: s) :: ss
      | [] => [[c]]

/-- Python s.split on the pipe character. -/
def splitPipe (s : String) : List String := (splitOnCharL '|' s.data).map String.mk

/-- Joining with a one-character separator, on lists of characters. -/
def joinSepL (sep : Char) : List (List Char) → List Char
  | [] => []
  | [x] => x
  | x :: y :: xs => x ++ sep :: joinSepL sep (y :: xs)

/-- Python str.join with the pipe character as separator. -/
def joinPipe (l : List String) : String := String.mk (joinSepL '|' (l.map String.data))

/-- Python substring containment: needle in hay. -/
def containsSub (needle hay : List Char) : Bool :=
  hay.tails.any (fun t => needle.isPrefixOf t)

/-- Python str.replace for one-character patterns. -/
def replaceCharL (a b : Char) (cs : List Char) : List Char :=
  cs.map (fun c => if c = a then b else c)

/-- UTF-8 encoding of one code point, as a list of byte values. -/
def utf8Bytes (c : Char) : List Nat :=
  let n := c.toNat
  if n < 0x80 then [n]
  else if n < 0x800 then [0xC0 + n / 64, 0x80 + n % 64]
  else if n < 0x10000 then [0xE0 + n / 4096, 0x80 + n / 64 % 64, 0x80 + n % 64]
  else [0xF0 + n / 262144, 0x80 + n / 4096 % 64, 0x80 + n / 64 % 64, 0x80 + n % 64]

/-- One step of a UTF-8 decoding automaton.  The state is (accumulated code
point value, number of continuation bytes still expected, output so far). -/
def utf8Step (s : Nat × Nat × List Nat) (b : Nat) : Nat × Nat × List Nat :=
  if s.2.1 = 0 then
    if b < 0x80 then (0, 0, s.2.2 ++ [b])
    else if b < 0xE0 then (b - 0xC0, 1, s.2.2)
    else if b < 0xF0 then (b - 0xE0, 2, s.2.2)
    else (b - 0xF0, 3, s.2.2)
  else if s.2.1 = 1 then (0, 0, s.2.2 ++ [s.1 * 64 + (b - 0x80)])
  else (s.1 * 64 + (b - 0x80), s.2.1 - 1, s.2.2)

/-- UTF-8 decoding of a byte sequence back to code points (correct on the
byte sequences that `utf8Bytes` produces). -/
def utf8Decode (bs : List Nat) : List Nat := (bs.foldl utf8Step (0, 0, [])).2.2

/-- Byte values left unescaped by urllib.parse.quote with its default safe set:
ASCII letters, digits, underscore, dot, hyphen, tilde, and slash. -/
def safeByte (b : Nat) : Bool :=
  (0x41 ≤ b && b ≤ 0x5A) || (0x61 ≤ b && b ≤ 0x7A) || (0x30 ≤ b && b ≤ 0x39) ||
    b == 0x5F || b == 0x2E || b == 0x2D || b == 0x7E || b == 0x2F

/-- Uppercase hexadecimal digit character. -/
def hexDigitChar (n : Nat) : Char :=
  if n < 10 then Char.ofNat (0x30 + n) else Char.ofNat (0x37 + n)

/-- Percent-escape of one byte, as produced by urllib.parse.quote. -/
def quoteByte (b : Nat) : List Char :=
  if safeByte b then [Char.ofNat b] else ['%', hexDigitChar (b / 16), hexDigitChar (b % 16)]

/-- urllib.parse.quote on a list of characters. -/
def quoteL (cs : List Char) : List Char :=
  cs.flatMap (fun c => (utf8Bytes c).flatMap quoteByte)

/-- urllib.parse.quote with the default safe characters. -/
def pyQuote (s : String) : String := String.mk (quoteL s.data)

/-- Numeric value of a hexadecimal digit character (both cases). -/
def hexVal (c : Char) : Option Nat :=
  let n := c.toNat
  if 0x30 ≤ n && n ≤ 0x39 then some (n - 0x30)
  else if 0x41 ≤ n && n ≤ 0x46 then some (n - 0x37)
  else if 0x61 ≤ n && n ≤ 0x66 then some (n - 0x57)
  else none

/-- State of the percent-decoding automaton: scanning normally, just after a
percent sign, or after a percent sign and one hexadecimal digit (recorded). -/
inductive UnqState where
  | norm
  | afterPct
  | afterHex (c1 : Char)

/-- One step of the percent-decoding automaton of urllib.parse.unquote. -/
def unqStep (s : UnqState × List Nat) (c : Char) : UnqState × List Nat :=
  match s.1 with
  | .norm => if c = '%' then (.afterPct, s.2) else (.norm, s.2 ++ utf8Bytes c)
  | .afterPct =>
    match hexVal c with
    | some _ => (.afterHex c, s.2)
    | none =>
      if c = '%' then (.afterPct, s.2 ++ [0x25])
      else (.norm, s.2 ++ [0x25] ++ utf8Bytes c)
  | .afterHex c1 =>
    match hexVal c1, hexVal c with
    | some h, some l => (.norm, s.2 ++ [16 * h + l])
    | _, _ =>
      if c = '%' then (.afterPct, s.2 ++ [0x25] ++ utf8Bytes c1)
      else (.norm, s.2 ++ [0x25] ++ utf8Bytes c1 ++ utf8Bytes c)

/-- Flushing a pending percent sequence at end of input. -/
def unqFlush (s : UnqState × List Nat) : List Nat :=
  match s.1 with
  | .norm => s.2
  | .afterPct => s.2 ++ [0x25]
  | .afterHex c1 => s.2 ++ [0x25] ++ utf8Bytes c1

/-- Percent-decoding of a string to its byte sequence, as urllib.parse.unquote:
a percent sign followed by two hexadecimal digits decodes to that byte, an
invalid percent sequence is passed through, every other character contributes
its UTF-8 bytes. -/
def unquoteBytes (cs : List Char) : List Nat := unqFlush (cs.foldl unqStep (.norm, []))

/-- urllib.parse.unquote: percent-decode to bytes, then UTF-8 decode. -/
def pyUnquote (s : String) : String :=
  String.mk ((utf8Decode (unquoteBytes s.data)).map Char.ofNat)

/-- Fixed base URL of the trend-tracking service (src/TopicMining.py line 117). -/
def base_url : String :=
  "https://pageviews.wmcloud.org/?project=en.wikipedia.org&platform=all-access&agent=user&redirects=0&range=latest-20&pages="

/-- Error message shown when the API key fails the shape check (line 34). -/
def keyErrorMsg : String :=
  "The hardcoded OpenAI API key appears to be invalid. Please check the script."

/-- Text preceding the exception in the st.error call of line 77. -/
def openaiErrorPre : String := "An error occurred while contacting the OpenAI API: "

/-- Message of the ValueError raised on a malformed response (line 73). -/
def valueErrorMsg : String := "AI model did not return the expected pipe-separated format."

/-- Outcome of the one call of the completion endpoint, as seen by the resolver:
either the response content string, or the text of the exception raised by the
client library (transport, auth, or rate-limit failure). -/
inductive ApiResult where
  | success (content : String)
  | failure (errText : String)

/-- Observable behaviour of find_relevant_wiki_pages: its return value (None is
modelled as `none`), whether the completion request was attempted, and the
message shown through st.error, if any. -/
structure ResolverOutcome where
  result : Option String
  requestAttempted : Bool
  errorShown : Option String

/-- Shallow embedding of find_relevant_wiki_pages (src/TopicMining.py lines 26-78).
The network call is a parameter: `api` is what client.chat.completions.create
produced, a content string or an exception. -/
def find_relevant_wiki_pages (api_key : String) (api : ApiResult) : ResolverOutcome :=
  if api_key = "" ∨ containsSub "sk-proj".data api_key.data = false then
    { result := none, requestAttempted := false, errorShown := some keyErrorMsg }
  else
    match api with
    | .failure e =>
      { result := none, requestAttempted := true, errorShown := some (openaiErrorPre ++ e) }
    | .success content =>
      let page_titles_string := pyStrip content
      if page_titles_string.data.contains '|' = false ∨ (splitPipe page_titles_string).length < 5 then
        { result := none, requestAttempted := true,
          errorShown := some (openaiErrorPre ++ valueErrorMsg) }
      else
        { result := some page_titles_string, requestAttempted := true, errorShown := none }

/-- Observable behaviour of one form submission in main (src/TopicMining.py
lines 101-134): the missing-input warning, whether the resolver attempted the
network request, the resolver's error message, the final URL of the link
button, the readable topic list, and the closing st.error of line 134. -/
structure AppView where
  missingWarning : Bool
  networkAttempted : Bool
  resolverError : Option String
  finalUrl : Option String
  readable : Option (List String)
  failureShown : Bool

/-- Shallow embedding of the submission handling in main (src/TopicMining.py
lines 101-134), including the Python truthiness test on the resolver result. -/
def processSubmission (api_key product_desc customer_profile : String) (api : ApiResult) :
    AppView :=
  if product_desc = "" ∨ customer_profile = "" then
    { missingWarning := true, networkAttempted := false, resolverError := none,
      finalUrl := none, readable := none, failureShown := false }
  else
    let r := find_relevant_wiki_pages api_key api
    match r.result with
    | some wiki_pages_str =>
      if wiki_pages_str = "" then
        { missingWarning := false, networkAttempted := r.requestAttempted,
          resolverError := r.errorShown, finalUrl := none, readable := none,
          failureShown := true }
      else
        let page_list := splitPipe wiki_pages_str
        let encoded_pages := page_list.map (fun page => pyQuote (pyStrip page))
        let encoded_pages_str := joinPipe encoded_pages
        let final_url := base_url ++ encoded_pages_str
        let readable_pages := page_list.map (fun p => pyStrip (String.mk (replaceCharL '_' ' ' p.data)))
        { missingWarning := false, networkAttempted := r.requestAttempted,
          resolverError := r.errorShown, finalUrl := some final_url,
          readable := some readable_pages, failureShown := false }
    | none =>
      { missingWarning := false, networkAttempted := r.requestAttempted,
        resolverError := r.errorShown, finalUrl := none, readable := none,
        failureShown := true }

/-! Helper lemmas about characters, UTF-8, and percent-encoding. -/

theorem mk_inj {a b : List Char} : String.mk a = String.mk b ↔ a = b :=
  ⟨fun h => by injection h, fun h => by rw [h]⟩

theorem contains_iff_mem {l : List Char} {c : Char} : l.contains c = true ↔ c ∈ l :=
  List.elem_iff

theorem char_toNat_lt (c : Char) : c.toNat < 1114112 := by
  rcases c.valid with h | ⟨_, h2⟩
  · exact Nat.lt_trans h (by norm_num)
  · exact h2

theorem toNat_ofNat_valid {n : Nat} (h : n.isValidChar) : (Char.ofNat n).toNat = n := by
  unfold Char.ofNat
  rw [dif_pos h]
  rfl

theorem toNat_ofNat_lt {n : Nat} (h : n < 0xd800) : (Char.ofNat n).toNat = n :=
  toNat_ofNat_valid (Or.inl h)

theorem utf8Bytes_lt (c : Char) : ∀ b ∈ utf8Bytes c, b < 256 := by
  intro b hb
  have hc := char_toNat_lt c
  simp only [utf8Bytes] at hb
  split at hb
  · simp at hb; omega
  · split at hb
    · simp at hb; rcases hb with h | h <;> omega
    · split at hb
      · simp at hb; rcases hb with h | h | h <;> omega
      · simp at hb; rcases hb with h | h | h | h <;> omega

theorem utf8Step_bytes (c : Char) (out : List Nat) :
    List.foldl utf8Step (0, 0, out) (utf8Bytes c) = (0, 0, out ++ [c.toNat]) := by
  have hc := char_toNat_lt c
  simp only [utf8Bytes]
  split
  · have s1 : utf8Step (0, 0, out) c.toNat = (0, 0, out ++ [c.toNat]) := by
      have h1 : c.toNat < 0x80 := by omega
      simp [utf8Step, h1]
    rw [List.foldl_cons, s1, List.foldl_nil]
  · split
    · have s1 : utf8Step (0, 0, out) (0xC0 + c.toNat / 64) = (c.toNat / 64, 1, out) := by
        have h1 : ¬ (0xC0 + c.toNat / 64 < 0x80) := by omega
        have h2 : 0xC0 + c.toNat / 64 < 0xE0 := by omega
        have h3 : 0xC0 + c.toNat / 64 - 0xC0 = c.toNat / 64 := by omega
        simp [utf8Step, h1, h2, h3]
      have s2 : utf8Step (c.toNat / 64, 1, out) (0x80 + c.toNat % 64) =
          (0, 0, out ++ [c.toNat]) := by
        simp [utf8Step]
        omega
      rw [List.foldl_cons, s1, List.foldl_cons, s2, List.foldl_nil]
    · split
      · have s1 : utf8Step (0, 0, out) (0xE0 + c.toNat / 4096) = (c.toNat / 4096, 2, out) := by
          have h1 : ¬ (0xE0 + c.toNat / 4096 < 0x80) := by omega
          have h2 : ¬ (0xE0 + c.toNat / 4096 < 0xE0) := by omega
          have h3 : 0xE0 + c.toNat / 4096 < 0xF0 := by omega
          have h4 : 0xE0 + c.toNat / 4096 - 0xE0 = c.toNat / 4096 := by omega
          simp [utf8Step, h1, h2, h3, h4]
        have s2 : utf8Step (c.toNat / 4096, 2, out) (0x80 + c.toNat / 64 % 64) =
            (c.toNat / 4096 * 64 + c.toNat / 64 % 64, 1, out) := by
          have h3 : c.toNat / 4096 * 64 + (0x80 + c.toNat / 64 % 64 - 0x80) =
              c.toNat / 4096 * 64 + c.toNat / 64 % 64 := by omega
          simp [utf8Step, h3]
        have s3 : utf8Step (c.toNat / 4096 * 64 + c.toNat / 64 % 64, 1, out)
            (0x80 + c.toNat % 64) = (0, 0, out ++ [c.toNat]) := by
          simp [utf8Step]
          omega
        rw [List.foldl_cons, s1, List.foldl_cons, s2, List.foldl_cons, s3, List.foldl_nil]
      · have s1 : utf8Step (0, 0, out) (0xF0 + c.toNat / 262144) = (c.toNat / 262144, 3, out) := by
          have h1 : ¬ (0xF0 + c.toNat / 262144 < 0x80) := by omega
          have h2 : ¬ (0xF0 + c.toNat / 262144 < 0xE0) := by omega
          have h3 : ¬ (0xF0 + c.toNat / 262144 < 0xF0) := by omega
          have h4 : 0xF0 + c.toNat / 262144 - 0xF0 = c.toNat / 262144 := by omega
          simp [utf8Step, h1, h2, h3, h4]
        have s2 : utf8Step (c.toNat / 262144, 3, out) (0x80 + c.toNat / 4096 % 64) =
            (c.toNat / 262144 * 64 + c.toNat / 4096 % 64, 2, out) := by
          have h3 : c.toNat / 262144 * 64 + (0x80 + c.toNat / 4096 % 64 - 0x80) =
              c.toNat / 262144 * 64 + c.toNat / 4096 % 64 := by omega
          simp [utf8Step, h3]
        have s3 : utf8Step (c.toNat / 262144 * 64 + c.toNat / 4096 % 64, 2, out)
            (0x80 + c.toNat / 64 % 64) =
            ((c.toNat / 262144 * 64 + c.toNat / 4096 % 64) * 64 + c.toNat / 64 % 64, 1, out) := by
          have h3 : (c.toNat / 262144 * 64 + c.toNat / 4096 % 64) * 64 +
              (0x80 + c.toNat / 64 % 64 - 0x80) =
              (c.toNat / 262144 * 64 + c.toNat / 4096 % 64) * 64 + c.toNat / 64 % 64 := by omega
          simp [utf8Step, h3]
        have s4 : utf8Step ((c.toNat / 262144 * 64 + c.toNat / 4096 % 64) * 64 +
            c.toNat / 64 % 64, 1, out) (0x80 + c.toNat % 64) = (0, 0, out ++ [c.toNat]) := by
          simp [utf8Step]
          omega
        rw [List.foldl_cons, s1, List.foldl_cons, s2, List.foldl_cons, s3, List.foldl_cons, s4,
          List.foldl_nil]

theorem utf8Decode_flat (cs : List Char) :
    utf8Decode (cs.flatMap utf8Bytes) = cs.map Char.toNat := by
  suffices h : ∀ out, List.foldl utf8Step (0, 0, out) (cs.flatMap utf8Bytes) =
      (0, 0, out ++ cs.map Char.toNat) by
    unfold utf8Decode
    rw [h []]
    simp
  intro out
  induction cs generalizing out with
  | nil => simp
  | cons c cs ih =>
    rw [List.flatMap_cons, List.foldl_append, utf8Step_bytes, ih, List.map_cons]
    simp

theorem safeByte_facts {b : Nat} (h : safeByte b = true) :
    0x2D ≤ b ∧ b ≤ 0x7E ∧ b ≠ 0x25 ∧ b ≠ 0x7C := by
  simp only [safeByte, Bool.or_eq_true, Bool.and_eq_true, decide_eq_true_eq, beq_iff_eq] at h
  omega

theorem hexVal_hexDigitChar {n : Nat} (h : n < 16) : hexVal (hexDigitChar n) = some n := by
  interval_cases n <;> decide

theorem hexDigitChar_ne {n : Nat} (h : n < 16) :
    hexDigitChar n ≠ '|' ∧ hexDigitChar n ≠ '%' := by
  interval_cases n <;> decide

theorem quoteByte_ne_pipe {b : Nat} (hb : b < 256) : ∀ c ∈ quoteByte b, c ≠ '|' := by
  intro c hc
  by_cases hs : safeByte b = true
  · simp only [quoteByte, if_pos hs, List.mem_singleton] at hc
    subst hc
    obtain ⟨h1, h2, h3, h4⟩ := safeByte_facts hs
    have hv : (Char.ofNat b).toNat = b := toNat_ofNat_lt (by omega)
    intro he
    rw [he] at hv
    have h124 : ('|' : Char).toNat = 124 := rfl
    omega
  · simp only [quoteByte, if_neg hs] at hc
    simp at hc
    rcases hc with h | h | h
    · subst h; decide
    · subst h; exact (hexDigitChar_ne (by omega)).1
    · subst h; exact (hexDigitChar_ne (by omega)).1

theorem quoteL_not_pipe (cs : List Char) : '|' ∉ quoteL cs := by
  intro h
  simp only [quoteL, List.mem_flatMap] at h
  obtain ⟨c, _, h2⟩ := h
  obtain ⟨b, hb, h3⟩ := h2
  exact quoteByte_ne_pipe (utf8Bytes_lt c b hb) '|' h3 rfl

theorem foldl_unqStep_quoteByte {b : Nat} (hb : b < 256) (out : List Nat) :
    List.foldl unqStep (.norm, out) (quoteByte b) = (.norm, out ++ [b]) := by
  by_cases hs : safeByte b = true
  · obtain ⟨h1, h2, h3, h4⟩ := safeByte_facts hs
    have hv : (Char.ofNat b).toNat = b := toNat_ofNat_lt (by omega)
    have hne : Char.ofNat b ≠ '%' := by
      intro he
      rw [he] at hv
      have h37 : ('%' : Char).toNat = 37 := rfl
      omega
    rw [quoteByte, if_pos hs, List.foldl_cons, List.foldl_nil]
    have hb8 : utf8Bytes (Char.ofNat b) = [b] := by
      simp only [utf8Bytes]
      rw [hv]
      rw [if_pos (by omega)]
    have e1 : unqStep (.norm, out) (Char.ofNat b) = (.norm, out ++ [b]) := by
      simp [unqStep, hne, hb8]
    rw [e1]
  · have hv1 : hexVal (hexDigitChar (b / 16)) = some (b / 16) := hexVal_hexDigitChar (by omega)
    have hv2 : hexVal (hexDigitChar (b % 16)) = some (b % 16) := hexVal_hexDigitChar (by omega)
    rw [quoteByte, if_neg hs, List.foldl_cons, List.foldl_cons, List.foldl_cons, List.foldl_nil]
    have e1 : unqStep (.norm, out) '%' = (.afterPct, out) := by simp [unqStep]
    rw [e1]
    have e2 : unqStep (.afterPct, out) (hexDigitChar (b / 16)) =
        (.afterHex (hexDigitChar (b / 16)), out) := by
      simp [unqStep, hv1]
    rw [e2]
    have e3 : unqStep (.afterHex (hexDigitChar (b / 16)), out) (hexDigitChar (b % 16)) =
        (.norm, out ++ [16 * (b / 16) + b % 16]) := by
      simp [unqStep, hv1, hv2]
    rw [e3]
    have hb16 : 16 * (b / 16) + b % 16 = b := by omega
    rw [hb16]

theorem foldl_unqStep_bytes {bs : List Nat} (h : ∀ b ∈ bs, b < 256) (out : List Nat) :
    List.foldl unqStep (.norm, out) (bs.flatMap quoteByte) = (.norm, out ++ bs) := by
  induction bs generalizing out with
  | nil => simp
  | cons b bs ih =>
    rw [List.flatMap_cons, List.foldl_append,
      foldl_unqStep_quoteByte (h b (List.mem_cons_self b bs)) out,
      ih (fun x hx => h x (List.mem_cons_of_mem b hx))]
    simp

theorem unquoteBytes_quoteL (cs : List Char) :
    unquoteBytes (quoteL cs) = cs.flatMap utf8Bytes := by
  suffices h : ∀ out, List.foldl unqStep (.norm, out) (quoteL cs) =
      (.norm, out ++ cs.flatMap utf8Bytes) by
    unfold unquoteBytes
    rw [h []]
    simp [unqFlush]
  intro out
  induction cs generalizing out with
  | nil => simp [quoteL]
  | cons c cs ih =>
    rw [show quoteL (c :: cs) = (utf8Bytes c).flatMap quoteByte ++ quoteL cs from by
      simp [quoteL]]
    rw [List.foldl_append, foldl_unqStep_bytes (utf8Bytes_lt c) out, ih]
    rw [List.flatMap_cons]
    simp

theorem pyUnquote_pyQuote (s : String) : pyUnquote (pyQuote s) = s := by
  obtain ⟨data⟩ := s
  unfold pyUnquote pyQuote
  rw [show (String.mk (quoteL (String.mk data).data)).data = quoteL data from rfl]
  rw [unquoteBytes_quoteL, utf8Decode_flat, List.map_map]
  congr 1
  induction data with
  | nil => rfl
  | cons c cs ih => simp [ih, Char.ofNat_toNat]

theorem splitOnCharL_ne_nil (sep : Char) (cs : List Char) : splitOnCharL sep cs ≠ [] := by
  induction cs with
  | nil => simp [splitOnCharL]
  | cons c rest ih =>
    rw [splitOnCharL]
    split
    · simp
    · split
      · simp
      · simp

theorem splitOnCharL_no_sep {sep : Char} {cs : List Char} (h : sep ∉ cs) :
    splitOnCharL sep cs = [cs] := by
  induction cs with
  | nil => rfl
  | cons c rest ih =>
    have hc : ¬ c = sep := fun he => h (he ▸ List.mem_cons_self c rest)
    have hr : sep ∉ rest := fun hm => h (List.mem_cons_of_mem _ hm)
    rw [splitOnCharL, if_neg hc, ih hr]

theorem splitOnCharL_append {sep : Char} {a : List Char} (h : sep ∉ a) (b : List Char) :
    splitOnCharL sep (a ++ sep :: b) = a :: splitOnCharL sep b := by
  induction a with
  | nil =>
    rw [List.nil_append, splitOnCharL, if_pos rfl]
  | cons c rest ih =>
    have hc : ¬ c = sep := fun he => h (he ▸ List.mem_cons_self c rest)
    have hr : sep ∉ rest := fun hm => h (List.mem_cons_of_mem _ hm)
    rw [List.cons_append, splitOnCharL, if_neg hc, ih hr]

theorem splitOnCharL_joinSepL {sep : Char} {parts : List (List Char)}
    (hne : parts ≠ []) (h : ∀ p ∈ parts, sep ∉ p) :
    splitOnCharL sep (joinSepL sep parts) = parts := by
  induction parts with
  | nil => exact absurd rfl hne
  | cons p ps ih =>
    cases ps with
    | nil =>
      rw [joinSepL]
      exact splitOnCharL_no_sep (h p (List.mem_cons_self p []))
    | cons q qs =>
      rw [joinSepL, splitOnCharL_append (h p (List.mem_cons_self p (q :: qs)))]
      rw [ih (by simp) (fun r hr => h r (List.mem_cons_of_mem p hr))]

theorem mem_pyStripL {a : Char} {cs : List Char} (h : a ∈ pyStripL cs) : a ∈ cs := by
  unfold pyStripL at h
  rw [List.mem_reverse] at h
  have h2 := List.Sublist.mem h (List.dropWhile_sublist pyIsSpace)
  rw [List.mem_reverse] at h2
  exact List.Sublist.mem h2 (List.dropWhile_sublist pyIsSpace)

theorem sep_mem_of_two_le_split {sep : Char} {cs : List Char}
    (h : 2 ≤ (splitOnCharL sep cs).length) : sep ∈ cs := by
  by_contra hm
  rw [splitOnCharL_no_sep hm] at h
  simp at h

theorem contains_pipe_of_five {s : String} (h5 : 5 ≤ (splitPipe s).length) :
    s.data.contains '|' = true := by
  rw [contains_iff_mem]
  refine @sep_mem_of_two_le_split '|' s.data ?_
  unfold splitPipe at h5
  rw [List.length_map] at h5
  omega

theorem map_mk_data (l : List String) : List.map (String.mk ∘ String.data) l = l := by
  induction l with
  | nil => rfl
  | cons s ss ih =>
    simp only [List.map_cons, ih]
    rw [show (String.mk ∘ String.data) s = s from by cases s; rfl]

theorem splitPipe_joinPipe {l : List String} (hne : l ≠ []) (h : ∀ s ∈ l, '|' ∉ s.data) :
    splitPipe (joinPipe l) = l := by
  unfold splitPipe joinPipe
  rw [show (String.mk (joinSepL '|' (l.map String.data))).data =
    joinSepL '|' (l.map String.data) from rfl]
  rw [splitOnCharL_joinSepL (by simpa using hne)
    (fun p hp => by
      rw [List.mem_map] at hp
      obtain ⟨s, hs, rfl⟩ := hp
      exact h s hs)]
  rw [List.map_map, map_mk_data]

/-! Characterisation of the embedded pipeline functions. -/

theorem keyOk_not_refused {k : String} (hk : containsSub "sk-proj".data k.data = true) :
    ¬ (k = "" ∨ containsSub "sk-proj".data k.data = false) := by
  rintro (he | hf)
  · subst he
    exact absurd hk (by decide)
  · rw [hf] at hk
    cases hk

theorem resolver_failure_eq {k e : String} (hk : containsSub "sk-proj".data k.data = true) :
    find_relevant_wiki_pages k (.failure e) =
      { result := none, requestAttempted := true, errorShown := some (openaiErrorPre ++ e) } := by
  unfold find_relevant_wiki_pages
  rw [if_neg (keyOk_not_refused hk)]

theorem resolver_success_eq {k content : String}
    (hk : containsSub "sk-proj".data k.data = true) :
    find_relevant_wiki_pages k (.success content) =
      if (pyStrip content).data.contains '|' = false ∨ (splitPipe (pyStrip content)).length < 5
      then { result := none, requestAttempted := true,
             errorShown := some (openaiErrorPre ++ valueErrorMsg) }
      else { result := some (pyStrip content), requestAttempted := true, errorShown := none } := by
  unfold find_relevant_wiki_pages
  rw [if_neg (keyOk_not_refused hk)]

theorem ne_empty_of_contains_pipe {s : String} (h : s.data.contains '|' = true) : s ≠ "" := by
  intro he
  subst he
  exact absurd h (by decide)

theorem processSubmission_missing {k pd cp : String} (h : pd = "" ∨ cp = "") (api : ApiResult) :
    processSubmission k pd cp api =
      { missingWarning := true, networkAttempted := false, resolverError := none,
        finalUrl := none, readable := none, failureShown := false } := by
  unfold processSubmission
  rw [if_pos h]

theorem processSubmission_none {k pd cp : String} (hpd : pd ≠ "") (hcp : cp ≠ "")
    {api : ApiResult} (hr : (find_relevant_wiki_pages k api).result = none) :
    processSubmission k pd cp api =
      { missingWarning := false,
        networkAttempted := (find_relevant_wiki_pages k api).requestAttempted,
        resolverError := (find_relevant_wiki_pages k api).errorShown,
        finalUrl := none, readable := none, failureShown := true } := by
  simp only [processSubmission]
  rw [if_neg (by rintro (h | h) <;> [exact hpd h; exact hcp h])]
  simp only [hr]

theorem processSubmission_some {k pd cp : String} (hpd : pd ≠ "") (hcp : cp ≠ "")
    {api : ApiResult} {s : String} (hr : (find_relevant_wiki_pages k api).result = some s)
    (hs : s ≠ "") :
    processSubmission k pd cp api =
      { missingWarning := false,
        networkAttempted := (find_relevant_wiki_pages k api).requestAttempted,
        resolverError := (find_relevant_wiki_pages k api).errorShown,
        finalUrl := some (base_url ++
          joinPipe ((splitPipe s).map (fun page => pyQuote (pyStrip page)))),
        readable := some ((splitPipe s).map (fun p => pyStrip (String.mk (replaceCharL '_' ' ' p.data)))),
        failureShown := false } := by
  simp only [processSubmission]
  rw [if_neg (by rintro (h | h) <;> [exact hpd h; exact hcp h])]
  simp only [hr, hs]
  simp

/-! The claims. -/

/-- C1 counterexample: for the response "A| B|C|D|E" (valid: five segments), the
produced pages value is "A|B|C|D|E", and splitting it on pipes and
percent-decoding does NOT reconstruct the raw split segments, because the code
strips each segment before encoding (line 113), contrary to the claim that the
only per-segment strip happens at display time. -/
theorem c1_raw_roundtrip_counterexample :
    (processSubmission "sk-proj-k" "p" "c" (.success "A| B|C|D|E")).finalUrl =
      some (base_url ++ "A|B|C|D|E") ∧
    (splitPipe "A|B|C|D|E").map pyUnquote ≠ splitPipe (pyStrip "A| B|C|D|E") := by
  constructor
  · decide
  · decide

/-- C1 (amended): for non-empty inputs, a plausible key, and a response whose
stripped body splits into at least five segments, the final URL is the fixed
base URL followed by a pages value which, split on the unescaped pipes and
percent-decoded per field, reconstructs the per-segment-stripped split
segments (each raw segment with its surrounding whitespace removed, as the
code strips every segment before percent-encoding it). -/
theorem c1_roundtrip_stripped (k pd cp content : String)
    (hpd : pd ≠ "") (hcp : cp ≠ "")
    (hk : containsSub "sk-proj".data k.data = true)
    (h5 : 5 ≤ (splitPipe (pyStrip content)).length) :
    ∃ rest : String,
      (processSubmission k pd cp (.success content)).finalUrl = some (base_url ++ rest) ∧
      (splitPipe rest).map pyUnquote = (splitPipe (pyStrip content)).map pyStrip := by
  have hpipe := contains_pipe_of_five h5
  have hres : (find_relevant_wiki_pages k (.success content)).result = some (pyStrip content) := by
    rw [resolver_success_eq hk, if_neg ?hcond]
    case hcond =>
      rintro (hcf | hlen)
      · rw [hpipe] at hcf; cases hcf
      · omega
  have hsne : pyStrip content ≠ "" := ne_empty_of_contains_pipe hpipe
  refine ⟨joinPipe ((splitPipe (pyStrip content)).map (fun page => pyQuote (pyStrip page))),
    ?_, ?_⟩
  · rw [processSubmission_some hpd hcp hres hsne]
  · rw [splitPipe_joinPipe ?hne ?hnp]
    case hne =>
      intro hmap
      rw [List.map_eq_nil_iff] at hmap
      rw [hmap] at h5
      simp at h5
    case hnp =>
      intro s hs
      rw [List.mem_map] at hs
      obtain ⟨p, _, rfl⟩ := hs
      exact quoteL_not_pipe (pyStrip p).data
    rw [List.map_map]
    have hf : (pyUnquote ∘ fun page => pyQuote (pyStrip page)) = fun page => pyStrip page :=
      funext fun p => pyUnquote_pyQuote (pyStrip p)
    rw [hf]

/-- C1 witness: the amended round trip at a concrete input with an interior
padded segment. -/
theorem c1_roundtrip_stripped_witness :
    ∃ rest : String,
      (processSubmission "sk-proj-k" "p" "c" (.success "A| B|C|D|E")).finalUrl =
        some (base_url ++ rest) ∧
      (splitPipe rest).map pyUnquote = (splitPipe (pyStrip "A| B|C|D|E")).map pyStrip :=
  c1_roundtrip_stripped "sk-proj-k" "p" "c" "A| B|C|D|E"
    (by decide) (by decide) (by decide) (by decide)

/-- C2: with a plausible key, the resolver succeeds on a response body if and
only if the whitespace-stripped body contains a pipe character and splitting it
on the pipe yields at least five segments; in particular "A|B|C" is a failure
and "A|B|C|D|E" is a success; there is no second attempt (the single api
outcome is consumed once). -/
theorem c2_validation_iff (k content : String)
    (hk : containsSub "sk-proj".data k.data = true) :
    ((find_relevant_wiki_pages k (.success content)).result ≠ none ↔
      ((pyStrip content).data.contains '|' = true ∧
        5 ≤ (splitPipe (pyStrip content)).length)) ∧
    (find_relevant_wiki_pages k (.success "A|B|C")).result = none ∧
    (find_relevant_wiki_pages k (.success "A|B|C|D|E")).result = some "A|B|C|D|E" := by
  refine ⟨?_, ?_, ?_⟩
  · rw [resolver_success_eq hk]
    split
    · rename_i h
      constructor
      · intro hne; exact absurd rfl hne
      · rintro ⟨hc, hl⟩
        rcases h with h | h
        · rw [hc] at h; cases h
        · omega
    · rename_i h
      push_neg at h
      obtain ⟨hc, hl⟩ := h
      constructor
      · intro _
        exact ⟨by simpa using hc, by omega⟩
      · intro _
        simp
  · rw [resolver_success_eq hk]
    decide
  · rw [resolver_success_eq hk]
    decide

/-- C2 witness: the validation criterion applied at a concrete key. -/
theorem c2_validation_iff_witness :
    ((find_relevant_wiki_pages "sk-proj-w2" (.success "A|B|C|D|E")).result ≠ none ↔
      ((pyStrip "A|B|C|D|E").data.contains '|' = true ∧
        5 ≤ (splitPipe (pyStrip "A|B|C|D|E")).length)) ∧
    (find_relevant_wiki_pages "sk-proj-w2" (.success "A|B|C")).result = none ∧
    (find_relevant_wiki_pages "sk-proj-w2" (.success "A|B|C|D|E")).result =
      some "A|B|C|D|E" :=
  c2_validation_iff "sk-proj-w2" "A|B|C|D|E" (by decide)

/-- C3: for a response containing no pipe character at all, no TrendURL is
built (finalUrl is none) and the pipeline reports the resolution failure: the
resolver shows the malformed-format error and main shows its closing error. -/
theorem c3_no_pipe_no_url (k pd cp content : String)
    (hpd : pd ≠ "") (hcp : cp ≠ "")
    (hk : containsSub "sk-proj".data k.data = true)
    (hnp : content.data.contains '|' = false) :
    (processSubmission k pd cp (.success content)).finalUrl = none ∧
    (processSubmission k pd cp (.success content)).failureShown = true ∧
    (processSubmission k pd cp (.success content)).resolverError =
      some (openaiErrorPre ++ valueErrorMsg) := by
  have hsp : (pyStrip content).data.contains '|' = false := by
    by_contra hx
    rw [Bool.not_eq_false, contains_iff_mem] at hx
    have : '|' ∈ content.data := mem_pyStripL hx
    rw [← contains_iff_mem] at this
    rw [this] at hnp
    cases hnp
  have hres : (find_relevant_wiki_pages k (.success content)).result = none := by
    rw [resolver_success_eq hk, if_pos (Or.inl hsp)]
  have herr : (find_relevant_wiki_pages k (.success content)).errorShown =
      some (openaiErrorPre ++ valueErrorMsg) := by
    rw [resolver_success_eq hk, if_pos (Or.inl hsp)]
  rw [processSubmission_none hpd hcp hres]
  exact ⟨rfl, rfl, herr⟩

/-- C3 witness: a pipe-free response at concrete inputs. -/
theorem c3_no_pipe_no_url_witness :
    (processSubmission "sk-proj-w3" "p" "c" (.success "no separator here")).finalUrl = none ∧
    (processSubmission "sk-proj-w3" "p" "c" (.success "no separator here")).failureShown = true ∧
    (processSubmission "sk-proj-w3" "p" "c" (.success "no separator here")).resolverError =
      some (openaiErrorPre ++ valueErrorMsg) :=
  c3_no_pipe_no_url "sk-proj-w3" "p" "c" "no separator here"
    (by decide) (by decide) (by decide) (by decide)

/-- C4: if either form field is empty the submission shows the missing-input
warning, makes no network call, builds no URL, and shows no failure error. -/
theorem c4_missing_input (k pd cp : String) (api : ApiResult) (h : pd = "" ∨ cp = "") :
    (processSubmission k pd cp api).missingWarning = true ∧
    (processSubmission k pd cp api).networkAttempted = false ∧
    (processSubmission k pd cp api).finalUrl = none ∧
    (processSubmission k pd cp api).failureShown = false := by
  rw [processSubmission_missing h]
  exact ⟨rfl, rfl, rfl, rfl⟩

/-- C4 witness: empty product description with a non-empty customer profile. -/
theorem c4_missing_input_witness :
    (processSubmission "sk-proj-w4" "" "Urban millennials" (.success "A|B|C|D|E")).missingWarning
      = true ∧
    (processSubmission "sk-proj-w4" "" "Urban millennials"
      (.success "A|B|C|D|E")).networkAttempted = false ∧
    (processSubmission "sk-proj-w4" "" "Urban millennials" (.success "A|B|C|D|E")).finalUrl
      = none ∧
    (processSubmission "sk-proj-w4" "" "Urban millennials" (.success "A|B|C|D|E")).failureShown
      = false :=
  c4_missing_input "sk-proj-w4" "" "Urban millennials" (.success "A|B|C|D|E") (Or.inl rfl)

/-- Modelled from the spec: the superficial "prefix" shape check on the API
key, read literally — the key must start with the expected marker. -/
def specKeyShapeOk (k : String) : Bool := "sk-proj".data.isPrefixOf k.data

/-- C5 counterexample: the key "Xsk-proj-1" fails the literal prefix shape
check, yet the resolver does not refuse to run: the request is attempted and a
result is returned, because the code (line 33) tests substring containment of
"sk-proj", not a prefix. -/
theorem c5_prefix_check_counterexample :
    specKeyShapeOk "Xsk-proj-1" = false ∧
    (find_relevant_wiki_pages "Xsk-proj-1" (.success "A|B|C|D|E")).requestAttempted = true ∧
    (find_relevant_wiki_pages "Xsk-proj-1" (.success "A|B|C|D|E")).result =
      some "A|B|C|D|E" := by
  refine ⟨by decide, by decide, by decide⟩

/-- C5 (amended): for every API key that is empty or does not contain the
substring "sk-proj", the resolver refuses to run: it shows the invalid-key
error, returns Failure, and the completion request is never attempted. -/
theorem c5_key_refusal (k : String) (api : ApiResult)
    (h : k = "" ∨ containsSub "sk-proj".data k.data = false) :
    find_relevant_wiki_pages k api =
      { result := none, requestAttempted := false, errorShown := some keyErrorMsg } := by
  unfold find_relevant_wiki_pages
  rw [if_pos h]

/-- C5 witness: a key without the marker is refused. -/
theorem c5_key_refusal_witness :
    find_relevant_wiki_pages "bad-key" (.success "A|B|C|D|E") =
      { result := none, requestAttempted := false, errorShown := some keyErrorMsg } :=
  c5_key_refusal "bad-key" (.success "A|B|C|D|E") (Or.inr (by decide))

/-- C6: for the coffee scenario stub, the final URL is the base URL followed by
the ten tokens percent-encoded and pipe-joined in order (and that encoded join
is literally the stub string, every token being fixed under encoding), and the
readable list is the ten tokens with underscores replaced by spaces, in the
same order. -/
theorem c6_coffee_scenario :
    (processSubmission "sk-proj-w6" "A coffee subscription box" "Urban millennials"
      (.success
        "Coffee|Tea|Espresso|Beans|Roasting|Brewing|Fair_trade|Organic|Subscription|Gourmet")).finalUrl =
      some (base_url ++ joinPipe
        (["Coffee", "Tea", "Espresso", "Beans", "Roasting", "Brewing", "Fair_trade",
          "Organic", "Subscription", "Gourmet"].map pyQuote)) ∧
    joinPipe
        (["Coffee", "Tea", "Espresso", "Beans", "Roasting", "Brewing", "Fair_trade",
          "Organic", "Subscription", "Gourmet"].map pyQuote) =
      "Coffee|Tea|Espresso|Beans|Roasting|Brewing|Fair_trade|Organic|Subscription|Gourmet" ∧
    (processSubmission "sk-proj-w6" "A coffee subscription box" "Urban millennials"
      (.success
        "Coffee|Tea|Espresso|Beans|Roasting|Brewing|Fair_trade|Organic|Subscription|Gourmet")).readable =
      some ["Coffee", "Tea", "Espresso", "Beans", "Roasting", "Brewing", "Fair trade",
        "Organic", "Subscription", "Gourmet"] := by
  refine ⟨by decide, by decide, by decide⟩

/-- C7: percent-encoding is per token: encoding "Zero-waste_movement" leaves
its underscore and hyphen intact, an encoded token never contains a raw pipe
character, and joining encoded tokens with raw pipes then splitting on pipes
recovers exactly the encoded tokens (the separators are never escaped). -/
theorem c7_per_token_encoding :
    pyQuote "Zero-waste_movement" = "Zero-waste_movement" ∧
    (∀ s : String, '|' ∉ (pyQuote s).data) ∧
    (∀ (t : String) (ts : List String),
      splitPipe (joinPipe ((t :: ts).map pyQuote)) = (t :: ts).map pyQuote) := by
  refine ⟨by decide, fun s => quoteL_not_pipe s.data, fun t ts => splitPipe_joinPipe (by simp) ?_⟩
  intro s hs
  rw [List.mem_map] at hs
  obtain ⟨u, _, rfl⟩ := hs
  exact quoteL_not_pipe u.data

/-- C8: with a plausible key, any exception from the completion call surfaces
its original text in the shown error and yields Failure with the one request
consumed, and any malformed response (no pipe or fewer than five segments)
yields the same shape of failure outcome with the ValueError text. -/
theorem c8_exception_handling (k e : String)
    (hk : containsSub "sk-proj".data k.data = true) :
    find_relevant_wiki_pages k (.failure e) =
      { result := none, requestAttempted := true,
        errorShown := some (openaiErrorPre ++ e) } ∧
    ∀ content : String,
      ((pyStrip content).data.contains '|' = false ∨
        (splitPipe (pyStrip content)).length < 5) →
      find_relevant_wiki_pages k (.success content) =
        { result := none, requestAttempted := true,
          errorShown := some (openaiErrorPre ++ valueErrorMsg) } := by
  refine ⟨resolver_failure_eq hk, fun content hc => ?_⟩
  rw [resolver_success_eq hk, if_pos hc]

/-- C8 witness: a transport failure and a malformed response at concrete
inputs. -/
theorem c8_exception_handling_witness :
    find_relevant_wiki_pages "sk-proj-w8" (.failure "connection reset") =
      { result := none, requestAttempted := true,
        errorShown := some (openaiErrorPre ++ "connection reset") } ∧
    find_relevant_wiki_pages "sk-proj-w8" (.success "A|B|C") =
      { result := none, requestAttempted := true,
        errorShown := some (openaiErrorPre ++ valueErrorMsg) } :=
  ⟨(c8_exception_handling "sk-proj-w8" "connection reset" (by decide)).1,
    (c8_exception_handling "sk-proj-w8" "connection reset" (by decide)).2 "A|B|C" (by decide)⟩

/-- C9: the validation checks only the segment count: with a plausible key,
any response whose stripped body splits into at least five segments succeeds,
whatever the segments contain, and for non-empty inputs a TrendURL is built. -/
theorem c9_count_only_validation (k content : String)
    (hk : containsSub "sk-proj".data k.data = true)
    (h5 : 5 ≤ (splitPipe (pyStrip content)).length) :
    (find_relevant_wiki_pages k (.success content)).result = some (pyStrip content) ∧
    ∀ pd cp : String, pd ≠ "" → cp ≠ "" →
      ∃ u : String, (processSubmission k pd cp (.success content)).finalUrl = some u := by
  have hpipe := contains_pipe_of_five h5
  have hres : (find_relevant_wiki_pages k (.success content)).result = some (pyStrip content) := by
    rw [resolver_success_eq hk, if_neg ?hcond]
    case hcond =>
      rintro (hcf | hlen)
      · rw [hpipe] at hcf; cases hcf
      · omega
  refine ⟨hres, fun pd cp hpd hcp => ?_⟩
  exact ⟨_, by rw [processSubmission_some hpd hcp hres (ne_empty_of_contains_pipe hpipe)]⟩

/-- C9 witness: four consecutive pipes (five empty segments) succeed and
produce a URL. -/
theorem c9_count_only_validation_witness :
    (find_relevant_wiki_pages "sk-proj-w9" (.success "||||")).result =
      some (pyStrip "||||") ∧
    ∃ u : String, (processSubmission "sk-proj-w9" "p" "c" (.success "||||")).finalUrl =
      some u :=
  ⟨(c9_count_only_validation "sk-proj-w9" "||||" (by decide) (by decide)).1,
    (c9_count_only_validation "sk-proj-w9" "||||" (by decide) (by decide)).2 "p" "c"
      (by decide) (by decide)⟩

/-- C10: whenever the resolver returns a value, it is exactly the
whitespace-stripped response body of a successful call, it contains a pipe
character, and it splits on the pipe into at least five segments. -/
theorem c10_result_postcondition (k : String) (api : ApiResult) (s : String)
    (h : (find_relevant_wiki_pages k api).result = some s) :
    (∃ content : String, api = ApiResult.success content ∧ s = pyStrip content) ∧
    s.data.contains '|' = true ∧ 5 ≤ (splitPipe s).length := by
  by_cases hkey : k = "" ∨ containsSub "sk-proj".data k.data = false
  · rw [show find_relevant_wiki_pages k api =
      { result := none, requestAttempted := false, errorShown := some keyErrorMsg } from by
        unfold find_relevant_wiki_pages; rw [if_pos hkey]] at h
    exact Option.noConfusion h
  · have hk : containsSub "sk-proj".data k.data = true := by
      rcases Bool.eq_false_or_eq_true (containsSub "sk-proj".data k.data) with ht | hf
      · exact ht
      · exact absurd (Or.inr hf) hkey
    cases api with
    | failure e =>
      rw [resolver_failure_eq hk] at h
      exact Option.noConfusion h
    | success content =>
      rw [resolver_success_eq hk] at h
      split at h
      · exact Option.noConfusion h
      · rename_i hcond
        push_neg at hcond
        obtain ⟨hc, hl⟩ := hcond
        have hs2 : pyStrip content = s := Option.some.inj h
        subst hs2
        exact ⟨⟨content, rfl, rfl⟩, by simpa using hc, by omega⟩

/-- C10 witness: the postcondition at a padded but valid concrete response. -/
theorem c10_result_postcondition_witness :
    (∃ content : String, ApiResult.success " A|B|C|D|E " = ApiResult.success content ∧
      "A|B|C|D|E" = pyStrip content) ∧
    ("A|B|C|D|E" : String).data.contains '|' = true ∧
    5 ≤ (splitPipe "A|B|C|D|E").length :=
  c10_result_postcondition "sk-proj-w10" (.success " A|B|C|D|E ") "A|B|C|D|E" (by decide)
